import Mathlib

/-!
Shallow embedding of `nanobot/agent/inbox.py` (the inbox agent loop:
deterministic message-to-Obsidian routing) and proofs about it.

Strings are modelled by Lean `String` (a wrapper around `List Char`);
the helper functions below model the Python string/regex operations the
module uses, restricted to the exact forms occurring in the source:
every regex pattern in `KEYWORD_PATTERNS` has the shape `\b<literal>\b`
(word-boundary-delimited literal, possibly containing a space), and the
only substitution regex is `[^\w\s-]` (delete every character that is
not a word character, whitespace, or hyphen).
-/

namespace Nanobot

/-- Python `\s` for the ASCII range: space, tab, newline, carriage
return, vertical tab, form feed.  (`str.strip()` and `\s` agree on
these; the non-ASCII Unicode spaces are not modelled, none occur in
the repository's vocabulary.) -/
def isSpaceChar (c : Char) : Bool :=
  c = ' ' || c = '\t' || c = '\n' || c = '\r' || c = '\x0b' || c = '\x0c'

/-- Python `\w` (Unicode word character: letter, digit or underscore),
modelled for ASCII alphanumerics, underscore and the German letters
appearing in the keyword vocabulary. -/
def isWordChar (c : Char) : Bool :=
  c.isAlphanum || c = '_' || c = 'ä' || c = 'ö' || c = 'ü' || c = 'ß'

/-- Characters kept by `re.sub(r'[^\w\s-]', '', s)`: word characters,
whitespace, hyphen. -/
def keepChar (c : Char) : Bool :=
  isWordChar c || isSpaceChar c || c = '-'

/-- Python `str.lower`, modelled for ASCII letters and the German
umlauts used in the patterns. -/
def pyLowerChar (c : Char) : Char :=
  if c = 'Ä' then 'ä' else if c = 'Ö' then 'ö' else if c = 'Ü' then 'ü'
  else c.toLower

/-- Lowercase an entire string (models `text.lower()`). -/
def pyLower (s : String) : String :=
  ⟨s.data.map pyLowerChar⟩

/-- Remove leading whitespace (the left half of `str.strip()`). -/
def lstripL (l : List Char) : List Char :=
  l.dropWhile isSpaceChar

/-- Remove trailing whitespace (the right half of `str.strip()`). -/
def rstripL : List Char → List Char
  | [] => []
  | c :: cs =>
    match rstripL cs with
    | [] => if isSpaceChar c then [] else [c]
    | d :: ds => c :: d :: ds

/-- Python `str.strip()`: drop leading and trailing whitespace. -/
def stripL (l : List Char) : List Char :=
  rstripL (lstripL l)

/-- First line of a text: everything before the first newline.  This is
`text.split("\n")[0]`. -/
def firstLineL (l : List Char) : List Char :=
  l.takeWhile (fun c => c != '\n')

/-- Try to peel the literal `lit` off the front of `s`; return the
remaining characters on success. -/
def dropLit : List Char → List Char → Option (List Char)
  | [], s => some s
  | _ :: _, [] => none
  | c :: cs, d :: ds => if c = d then dropLit cs ds else none

/-- A `\b` word-boundary assertion holds next to a character `c` of the
text (or next to the text edge, `none`) when that character is not a
word character.  All literals in `KEYWORD_PATTERNS` start and end with
word characters, so this is the full boundary condition. -/
def boundaryOk : Option Char → Bool
  | none => true
  | some c => !isWordChar c

/-- Does the pattern `\b lit \b` match at the current position of the
text, where `prev` is the character immediately before the position? -/
def matchAt (prev : Option Char) (lit s : List Char) : Bool :=
  boundaryOk prev &&
    (match dropLit lit s with
     | some rest => boundaryOk rest.head?
     | none => false)

/-- Scan the text left to right for a match of `\b lit \b`
(`re.search` semantics: match anywhere). -/
def searchFrom (lit : List Char) (prev : Option Char) : List Char → Bool
  | [] => matchAt prev lit []
  | c :: cs => matchAt prev lit (c :: cs) || searchFrom lit (some c) cs

/-- `re.search(r"\b" + lit + r"\b", text)` as a Boolean. -/
def patMatch (lit text : String) : Bool :=
  searchFrom lit.data none text.data

/-- The keyword-pattern table `KEYWORD_PATTERNS` from the source, in
declaration order (`journal`, `ideen`, `reflexion`).  Each stored
string `w` stands for the source pattern `\bw\b`. -/
def KEYWORD_PATTERNS : List (String × List String) :=
  [ ("journal",
      ["heute", "tag", "erlebt", "gemacht",
       "morgens", "abends", "gestern", "war"]),
    ("ideen",
      ["idee", "könnte", "projekt", "was wäre"]),
    ("reflexion",
      ["denke", "frage mich", "warum", "bedeutet", "fühle"]) ]

/-- The loop body of `_classify`: iterate intents in declaration order,
return the first intent one of whose patterns matches. -/
def findIntent : List (String × List String) → String → Option String
  | [], _ => none
  | (intent, pats) :: rest, t =>
    if pats.any (fun p => patMatch p t) then some intent
    else findIntent rest t

/-- `InboxAgentLoop._classify`: keyword-based classification over the
lowercased text; `none` models the `None` (no match, LLM fallback). -/
def classify (text : String) : Option String :=
  findIntent KEYWORD_PATTERNS (pyLower text)

/-- The body of `InboxAgentLoop._safe_title` on character lists:
`first_line = text.strip().split("\n")[0][:50]`,
`safe = re.sub(r'[^\w\s-]', '', first_line).strip()`,
`return safe[:40] or "notiz"`. -/
def safeTitleL (l : List Char) : List Char :=
  let first_line := (firstLineL (stripL l)).take 50
  let safe := stripL (first_line.filter keepChar)
  if safe.take 40 = [] then "notiz".data else safe.take 40

/-- `InboxAgentLoop._safe_title` on strings. -/
def safe_title (text : String) : String :=
  ⟨safeTitleL text.data⟩

/-- Whether a list of characters does not start with whitespace. -/
def noLeadSpace : List Char → Bool
  | [] => true
  | c :: _ => !isSpaceChar c

/-- Naive local timestamp, the part of Python `datetime` this module
uses (microseconds are not modelled; no claim depends on them). -/
structure PyDateTime where
  year : Nat
  month : Nat
  day : Nat
  hour : Nat
  minute : Nat
  second : Nat
deriving DecidableEq, Repr

/-- Whether a year is a leap year (Gregorian rule). -/
def isLeapYear (y : Nat) : Bool :=
  y % 4 = 0 && (y % 100 ≠ 0 || y % 400 = 0)

/-- Number of days of a month. -/
def daysInMonth (y m : Nat) : Nat :=
  if m = 2 then (if isLeapYear y then 29 else 28)
  else if m = 4 || m = 6 || m = 9 || m = 11 then 30
  else 31

/-- The previous calendar day (year, month, day).  On a valid date this
is exactly the date part of `now - timedelta(days=1)` for a naive
Python datetime. -/
def prevCalDay (y m d : Nat) : Nat × Nat × Nat :=
  if 1 < d then (y, m, d - 1)
  else if 1 < m then (y, m - 1, daysInMonth y (m - 1))
  else (y - 1, 12, 31)

/-- `InboxAgentLoop._effective_date`: before the cutoff hour the date
portion moves one calendar day back (`now -= timedelta(days=1)`), the
time-of-day fields stay the actual current time. -/
def effective_date (day_cutoff_hour : Nat) (now : PyDateTime) : PyDateTime :=
  if now.hour < day_cutoff_hour then
    let p := prevCalDay now.year now.month now.day
    { now with year := p.1, month := p.2.1, day := p.2.2 }
  else now

/-- Decimal rendering of a natural number (models Python `str(n)` and
the digit fields of `str.format` / `strftime`). -/
def natDigitsAux : Nat → Nat → List Char
  | 0, _ => []
  | fuel + 1, n =>
    if n < 10 then [Char.ofNat (48 + n)]
    else natDigitsAux fuel (n / 10) ++ [Char.ofNat (48 + n % 10)]

/-- String form of a natural number. -/
def natToStr (n : Nat) : String :=
  ⟨natDigitsAux (n + 1) n⟩

/-- Zero-pad a number to two digits (the `{month:02d}` / `%m` / `%d` /
`%H` / `%M` formats). -/
def pad2 (n : Nat) : String :=
  if n < 10 then "0" ++ natToStr n else natToStr n

/-- Zero-pad a number to four digits (the `%Y` year field). -/
def pad4 (n : Nat) : String :=
  if n < 10 then "000" ++ natToStr n
  else if n < 100 then "00" ++ natToStr n
  else if n < 1000 then "0" ++ natToStr n
  else natToStr n

/-- `now.strftime("%Y-%m-%d")`. -/
def fmtDate (now : PyDateTime) : String :=
  pad4 now.year ++ "-" ++ pad2 now.month ++ "-" ++ pad2 now.day

/-- `now.strftime("%Y%m%d_%H%M")`. -/
def fmtTimestamp (now : PyDateTime) : String :=
  pad4 now.year ++ pad2 now.month ++ pad2 now.day ++ "_" ++
    pad2 now.hour ++ pad2 now.minute

/-- `now.strftime("%H:%M")`. -/
def fmtTime (now : PyDateTime) : String :=
  pad2 now.hour ++ ":" ++ pad2 now.minute

/-- `now.isoformat()` for a whole-second timestamp. -/
def fmtIso (now : PyDateTime) : String :=
  fmtDate now ++ "T" ++ pad2 now.hour ++ ":" ++ pad2 now.minute ++ ":" ++
    pad2 now.second

/-- Write mode of an output profile. -/
inductive WriteMode where
  | append
  | create
deriving DecidableEq, Repr

/-- One entry of `OUTPUT_CONFIG`.  The `str.format` templates of the
source are embedded as functions of the fields they reference:
`folderFor` renders the `folder` template from the effective date,
`fileFor` renders `filename` from the effective date and the safe
title, `bodyFor` renders `template` from the effective date, the safe
title and the raw message text. -/
structure OutProfile where
  folderFor : PyDateTime → String
  fileFor : PyDateTime → String → String
  mode : WriteMode
  bodyFor : PyDateTime → String → String → String
  emoji : String

/-- The `OUTPUT_CONFIG` table of the source, in declaration order. -/
def OUTPUT_CONFIG : List (String × OutProfile) :=
  [ ("journal",
     { folderFor := fun now =>
         "1 🗓️ Journals/" ++ natToStr now.year ++ "/" ++ pad2 now.month
       fileFor := fun now _ => fmtDate now ++ ".md"
       mode := .append
       bodyFor := fun now _ text =>
         "\n## " ++ fmtTime now ++ " Uhr\n\n" ++ text ++ "\n"
       emoji := "📝" }),
    ("ideen",
     { folderFor := fun _ => "2 💡 Ideen"
       fileFor := fun now title => fmtTimestamp now ++ "_" ++ title ++ ".md"
       mode := .create
       bodyFor := fun now title text =>
         "# 💡 " ++ title ++ "\n\nErstellt: " ++ fmtIso now ++
           "\n\n---\n\n" ++ text ++ "\n"
       emoji := "💡" }),
    ("reflexion",
     { folderFor := fun _ => "3 🤔 Reflexionen"
       fileFor := fun now title => fmtDate now ++ "_" ++ title ++ ".md"
       mode := .create
       bodyFor := fun now title text =>
         "# 🤔 " ++ title ++ "\n\nErstellt: " ++ fmtIso now ++
           "\n\n---\n\n" ++ text ++ "\n"
       emoji := "🤔" }),
    ("info",
     { folderFor := fun _ => "4 📝 Notizen"
       fileFor := fun now title => fmtTimestamp now ++ "_" ++ title ++ ".md"
       mode := .create
       bodyFor := fun now title text =>
         "# 📝 " ++ title ++ "\n\nErstellt: " ++ fmtIso now ++
           "\n\n---\n\n" ++ text ++ "\n"
       emoji := "📝" }) ]

/-- Dictionary lookup `OUTPUT_CONFIG[intent]` (as an option; the source
would raise `KeyError` on a missing key, which never happens because
the classifier only produces keys of `KEYWORD_PATTERNS`). -/
def lookupCfg : List (String × OutProfile) → String → Option OutProfile
  | [], _ => none
  | (k, v) :: rest, key => if k = key then some v else lookupCfg rest key

/-- The filesystem as a map from path to file content; `none` means the
file does not exist.  Directories are not modelled (`mkdir` is
idempotent and content-free). -/
abbrev FS := String → Option String

/-- The persist step of `_write_to_obsidian`: append mode opens the
file for appending (creating it when absent) and writes the body;
create mode writes the body as the entire content. -/
def applyWrite (fs : FS) (mode : WriteMode) (path content : String) : FS :=
  fun p =>
    if p = path then
      some (match mode with
            | .append => ((fs path).getD "") ++ content
            | .create => content)
    else fs p

/-- Last path component, `pathlib.Path(p).name`. -/
def path_name (p : String) : String :=
  ⟨((p.data.reverse).takeWhile (fun c => c != '/')).reverse⟩

/-- Everything before the last `/` of a path (its parent directory). -/
def parentDirL (l : List Char) : List Char :=
  (((l.reverse).dropWhile (fun c => c != '/')).drop 1).reverse

/-- Python `str.capitalize`: first character uppercased, rest
lowercased. -/
def capitalize (s : String) : String :=
  match s.data with
  | [] => ""
  | c :: cs => ⟨c.toUpper :: cs.map pyLowerChar⟩

/-- `InboxAgentLoop._write_to_obsidian`, with the ambient state made
explicit: the filesystem, the vault root (`self.obsidian_root`), the
cutoff hour (`self.day_cutoff_hour`) and the wall clock
(`datetime.now()`) are parameters.  Returns the updated filesystem and
the resolved path. -/
def write_to_obsidian (fs : FS) (root : String) (day_cutoff_hour : Nat)
    (clock : PyDateTime) (text intent : String) : Option (FS × String) :=
  match lookupCfg OUTPUT_CONFIG intent with
  | none => none
  | some config =>
    let now := effective_date day_cutoff_hour clock
    let title := safe_title text
    let folder := root ++ "/" ++ config.folderFor now
    let filename := config.fileFor now title
    let path := folder ++ "/" ++ filename
    let content := config.bodyFor now title text
    some (applyWrite fs config.mode path content, path)

/-- Inbound chat message (the fields of `InboundMessage` this module
reads). -/
structure InboundMessage where
  channel : String
  chat_id : String
  content : String
deriving DecidableEq, Repr

/-- Outbound reply message. -/
structure OutboundMessage where
  channel : String
  chat_id : String
  content : String
deriving DecidableEq, Repr

/-- `InboxAgentLoop._process_inbox`: classify and write, `none` when no
keyword matches.  The reply is
`f"{emoji} {intent.capitalize()} gespeichert → {path.name}"`. -/
def process_inbox (fs : FS) (root : String) (day_cutoff_hour : Nat)
    (clock : PyDateTime) (msg : InboundMessage) :
    Option (OutboundMessage × FS) :=
  match classify msg.content with
  | none => none
  | some intent =>
    match write_to_obsidian fs root day_cutoff_hour clock msg.content intent with
    | none => none
    | some (fs2, path) =>
      match lookupCfg OUTPUT_CONFIG intent with
      | none => none
      | some config =>
        let reply := config.emoji ++ " " ++ capitalize intent ++
          " gespeichert → " ++ path_name path
        some ({ channel := msg.channel, chat_id := msg.chat_id,
                content := reply }, fs2)

/-- `InboxAgentLoop._process_message`: messages from configured inbox
chats go through the inbox pipeline; a no-match result, and every
message from a non-inbox chat, is delegated to the base agent's
handler (`super()._process_message(msg, session_key)`), modelled by
the function `base`, which does not touch the vault filesystem. -/
def process_message (base : InboundMessage → Option String → Option OutboundMessage)
    (inbox_chat_ids : List String) (root : String) (day_cutoff_hour : Nat)
    (clock : PyDateTime) (fs : FS) (msg : InboundMessage)
    (session_key : Option String) : Option OutboundMessage × FS :=
  if msg.chat_id ∈ inbox_chat_ids then
    match process_inbox fs root day_cutoff_hour clock msg with
    | some (reply, fs2) => (some reply, fs2)
    | none => (base msg session_key, fs)
  else (base msg session_key, fs)

/-- The safe-title derivation exactly as the specification words it:
first line of the text, truncated to 50, non-(word/space/hyphen)
characters removed, stripped, truncated to 40, with the fallback for an
empty result.  (Differs from the source by not stripping the whole
text before taking the first line.) -/
def title_per_spec (text : String) : String :=
  let first_line := (firstLineL text.data).take 50
  let safe := stripL (first_line.filter keepChar)
  if safe.take 40 = [] then "notiz" else ⟨safe.take 40⟩

/-- The safe-title derivation as the specification words it, amended
with the initial whole-text strip that the source performs before
splitting off the first line. -/
def title_per_spec_amended (text : String) : String :=
  let first_line := (firstLineL (stripL text.data)).take 50
  let safe := stripL (first_line.filter keepChar)
  if safe.take 40 = [] then "notiz" else ⟨safe.take 40⟩

/-! ## Helper lemmas -/

theorem empty_append_str (s : String) : "" ++ s = s := by
  cases s
  rfl

theorem findIntent_eq_of_first_match (l : List (String × List String))
    (t : String) (i : Nat) (hi : i < l.length)
    (hmatch : (l.get ⟨i, hi⟩).2.any (fun p => patMatch p t) = true)
    (hbefore : ∀ e ∈ l.take i, e.2.any (fun p => patMatch p t) = false) :
    findIntent l t = some (l.get ⟨i, hi⟩).1 := by
  induction l generalizing i with
  | nil => exact absurd hi (by simp)
  | cons x xs ih =>
    obtain ⟨name, pats⟩ := x
    cases i with
    | zero =>
      simp only [List.get] at hmatch ⊢
      simp [findIntent, hmatch]
    | succ i =>
      have hx : (name, pats).2.any (fun p => patMatch p t) = false :=
        hbefore _ (by simp [List.take])
      simp only [List.get] at hmatch ⊢
      have := ih i (by simpa using hi) hmatch
        (fun e he => hbefore e (by simp [List.take, he]))
      simpa [findIntent, hx] using this

theorem findIntent_eq_none (l : List (String × List String)) (t : String)
    (h : ∀ e ∈ l, e.2.any (fun p => patMatch p t) = false) :
    findIntent l t = none := by
  induction l with
  | nil => rfl
  | cons x xs ih =>
    obtain ⟨name, pats⟩ := x
    have hx := h (name, pats) (List.mem_cons_self _ _)
    simp only at hx
    simp [findIntent, hx, ih (fun e he => h e (by simp [he]))]

theorem findIntent_mem_keys (l : List (String × List String)) (t s : String)
    (h : findIntent l t = some s) : ∃ e ∈ l, e.1 = s := by
  induction l with
  | nil => simp [findIntent] at h
  | cons x xs ih =>
    obtain ⟨name, pats⟩ := x
    by_cases hx : pats.any (fun p => patMatch p t) = true
    · simp [findIntent, hx] at h
      exact ⟨(name, pats), by simp, h⟩
    · simp [findIntent, hx] at h
      obtain ⟨e, he, hes⟩ := ih h
      exact ⟨e, by simp [he], hes⟩

/-! ## Claims -/

/-- C2: for every current local timestamp and configured cutoff hour,
a timestamp before the cutoff is attributed to the previous calendar
day, a timestamp at or after the cutoff to the current day; the
time-of-day fields stay the actual current time in either case.
Concretely, with cutoff 4, 2024-03-15 02:30 yields effective date
2024-03-14 (time 02:30) and 2024-03-15 04:00 yields 2024-03-15. -/
theorem effective_date_spec :
    (∀ (cutoff : Nat) (now : PyDateTime), now.hour < cutoff →
      effective_date cutoff now =
        { year := (prevCalDay now.year now.month now.day).1,
          month := (prevCalDay now.year now.month now.day).2.1,
          day := (prevCalDay now.year now.month now.day).2.2,
          hour := now.hour, minute := now.minute, second := now.second }) ∧
    (∀ (cutoff : Nat) (now : PyDateTime), cutoff ≤ now.hour →
      effective_date cutoff now = now) ∧
    (∀ (cutoff : Nat) (now : PyDateTime),
      (effective_date cutoff now).hour = now.hour ∧
      (effective_date cutoff now).minute = now.minute ∧
      (effective_date cutoff now).second = now.second) ∧
    effective_date 4 ⟨2024, 3, 15, 2, 30, 0⟩ = ⟨2024, 3, 14, 2, 30, 0⟩ ∧
    effective_date 4 ⟨2024, 3, 15, 4, 0, 0⟩ = ⟨2024, 3, 15, 4, 0, 0⟩ := by
  refine ⟨?_, ?_, ?_, by decide, by decide⟩
  · intro cutoff now h
    simp [effective_date, h]
  · intro cutoff now h
    simp [effective_date, Nat.not_lt.mpr h]
  · intro cutoff now
    by_cases h : now.hour < cutoff <;> simp [effective_date, h]

/-- Witness for C2 at the concrete inputs of the claim. -/
theorem effective_date_spec_witness :
    (2 : Nat) < 4 ∧ (4 : Nat) ≤ 4 ∧
    effective_date 4 ⟨2024, 3, 15, 2, 30, 0⟩ = ⟨2024, 3, 14, 2, 30, 0⟩ ∧
    effective_date 4 ⟨2024, 3, 15, 4, 0, 0⟩ = ⟨2024, 3, 15, 4, 0, 0⟩ := by
  refine ⟨by decide, by decide, ?_, ?_⟩
  · have h := effective_date_spec.1 4 ⟨2024, 3, 15, 2, 30, 0⟩ (by decide)
    simpa [prevCalDay] using h
  · exact effective_date_spec.2.1 4 ⟨2024, 3, 15, 4, 0, 0⟩ (by decide)

/-- C1 counterexample: the text "idee denke heute" matches a pattern of
`ideen` (declared first among the two) and a pattern of `reflexion`,
yet `classify` returns `journal`, because a `journal` pattern also
matches and `journal` is declared earlier still. -/
theorem classify_order_counterexample :
    (∃ p ∈ (KEYWORD_PATTERNS.get ⟨1, by decide⟩).2,
        patMatch p (pyLower "idee denke heute") = true) ∧
    (∃ p ∈ (KEYWORD_PATTERNS.get ⟨2, by decide⟩).2,
        patMatch p (pyLower "idee denke heute") = true) ∧
    (KEYWORD_PATTERNS.get ⟨1, by decide⟩).1 = "ideen" ∧
    (KEYWORD_PATTERNS.get ⟨2, by decide⟩).1 = "reflexion" ∧
    classify "idee denke heute" = some "journal" ∧
    classify "idee denke heute" ≠ some "ideen" := by
  decide

/-- C1 (amended): for every text matching some pattern of intent A and
some pattern of a later-declared intent B, *and matching no pattern of
any intent declared before A*, `classify` returns A — declaration
order alone resolves ties, regardless of which match is more
specific. -/
theorem classify_declaration_order (text : String) (i j : Nat)
    (hi : i < KEYWORD_PATTERNS.length) (hj : j < KEYWORD_PATTERNS.length)
    (_hij : i < j)
    (hA : ∃ p ∈ (KEYWORD_PATTERNS.get ⟨i, hi⟩).2,
        patMatch p (pyLower text) = true)
    (_hB : ∃ p ∈ (KEYWORD_PATTERNS.get ⟨j, hj⟩).2,
        patMatch p (pyLower text) = true)
    (hfirst : ∀ e ∈ KEYWORD_PATTERNS.take i, ∀ p ∈ e.2,
        patMatch p (pyLower text) = false) :
    classify text = some (KEYWORD_PATTERNS.get ⟨i, hi⟩).1 := by
  have hmatch : (KEYWORD_PATTERNS.get ⟨i, hi⟩).2.any
      (fun p => patMatch p (pyLower text)) = true := by
    rw [List.any_eq_true]
    obtain ⟨p, hp, hm⟩ := hA
    exact ⟨p, hp, hm⟩
  have hbefore : ∀ e ∈ KEYWORD_PATTERNS.take i,
      e.2.any (fun p => patMatch p (pyLower text)) = false := by
    intro e he
    rw [List.any_eq_false]
    intro p hp
    simp [hfirst e he p hp]
  exact findIntent_eq_of_first_match KEYWORD_PATTERNS (pyLower text) i hi
    hmatch hbefore

/-- Witness for C1 (amended): "idee denke" matches `ideen` (index 1)
and `reflexion` (index 2), no `journal` pattern matches, and
`classify` returns `ideen`. -/
theorem classify_declaration_order_witness :
    (∃ p ∈ (KEYWORD_PATTERNS.get ⟨1, by decide⟩).2,
        patMatch p (pyLower "idee denke") = true) ∧
    classify "idee denke" = some "ideen" := by
  refine ⟨by decide, ?_⟩
  exact classify_declaration_order "idee denke" 1 2 (by decide) (by decide)
    (by decide) (by decide) (by decide) (by decide)

/-- C4: a text matching no configured pattern classifies to the
no-match sentinel, and the dispatcher then delegates to the base
agent's handler with the message and session key unchanged, returning
whatever the base handler yields. -/
theorem no_match_delegates (msg : InboundMessage)
    (h : ∀ e ∈ KEYWORD_PATTERNS, ∀ p ∈ e.2,
        patMatch p (pyLower msg.content) = false) :
    classify msg.content = none ∧
    ∀ (base : InboundMessage → Option String → Option OutboundMessage)
      (inbox_chat_ids : List String) (root : String) (cutoff : Nat)
      (clock : PyDateTime) (fs : FS) (session_key : Option String),
      process_message base inbox_chat_ids root cutoff clock fs msg
        session_key = (base msg session_key, fs) := by
  have hcls : classify msg.content = none := by
    apply findIntent_eq_none
    intro e he
    rw [List.any_eq_false]
    intro p hp
    simp [h e he p hp]
  refine ⟨hcls, ?_⟩
  intro base ids root cutoff clock fs session_key
  by_cases hmem : msg.chat_id ∈ ids <;>
    simp [process_message, process_inbox, hcls, hmem]

/-- Witness for C4: the text "42 ok" matches no pattern; the dispatcher
hands it to the base agent untouched. -/
theorem no_match_delegates_witness :
    (∀ e ∈ KEYWORD_PATTERNS, ∀ p ∈ e.2,
        patMatch p (pyLower "42 ok") = false) ∧
    classify "42 ok" = none ∧
    process_message (fun _ _ => none) ["42"] "/vault" 4
      ⟨2024, 3, 15, 20, 0, 0⟩ (fun _ => none)
      ⟨"telegram", "42", "42 ok"⟩ (some "k") =
      ((fun (_ : InboundMessage) (_ : Option String) =>
          (none : Option OutboundMessage)) ⟨"telegram", "42", "42 ok"⟩
        (some "k"), fun _ => none) := by
  refine ⟨by decide, ?_, ?_⟩
  · exact (no_match_delegates ⟨"telegram", "42", "42 ok"⟩ (by decide)).1
  · exact (no_match_delegates ⟨"telegram", "42", "42 ok"⟩ (by decide)).2
      (fun _ _ => none) ["42"] "/vault" 4 ⟨2024, 3, 15, 20, 0, 0⟩
      (fun _ => none) (some "k")

/-- C5: two sequential append-mode writes to the same path concatenate
their bodies in call order (the first creates the file when absent,
and in general appends to whatever was there); create-mode writes to
two different paths never disturb each other — each file's entire
content is its own body. -/
theorem write_persist_spec :
    (∀ (fs : FS) (path c1 c2 : String), fs path = none →
      applyWrite (applyWrite fs .append path c1) .append path c2 path =
        some (c1 ++ c2)) ∧
    (∀ (fs : FS) (path c1 c2 : String),
      applyWrite (applyWrite fs .append path c1) .append path c2 path =
        some (((fs path).getD "") ++ c1 ++ c2)) ∧
    (∀ (fs : FS) (p1 p2 c1 c2 : String), p1 ≠ p2 →
      applyWrite (applyWrite fs .create p1 c1) .create p2 c2 p1 =
        some c1 ∧
      applyWrite (applyWrite fs .create p1 c1) .create p2 c2 p2 =
        some c2) := by
  refine ⟨?_, ?_, ?_⟩
  · intro fs path c1 c2 h
    simp [applyWrite, h, empty_append_str]
  · intro fs path c1 c2
    simp [applyWrite]
  · intro fs p1 p2 c1 c2 h
    constructor
    · simp [applyWrite, h]
    · simp [applyWrite]

/-- Witness for C5 on a concrete filesystem and paths. -/
theorem write_persist_spec_witness :
    ((fun _ => none : FS) "j.md" = none) ∧
    applyWrite (applyWrite (fun _ => none) .append "j.md" "x")
      .append "j.md" "y" "j.md" = some ("x" ++ "y") ∧
    ("a.md" ≠ "b.md") ∧
    applyWrite (applyWrite (fun _ => none) .create "a.md" "u")
      .create "b.md" "v" "a.md" = some "u" := by
  refine ⟨rfl, ?_, by decide, ?_⟩
  · exact write_persist_spec.1 (fun _ => none) "j.md" "x" "y" rfl
  · exact (write_persist_spec.2.2 (fun _ => none) "a.md" "b.md" "u" "v"
      (by decide)).1

/-- C8: every intent label the classifier can return has an entry in
the output-profile table, so the profile lookup after a successful
classification never fails. -/
theorem classifier_outputs_have_profiles (text intent : String)
    (h : classify text = some intent) :
    (lookupCfg OUTPUT_CONFIG intent).isSome = true := by
  obtain ⟨e, he, hname⟩ := findIntent_mem_keys KEYWORD_PATTERNS
    (pyLower text) intent h
  subst hname
  simp only [KEYWORD_PATTERNS, List.mem_cons, List.mem_singleton] at he
  rcases he with rfl | rfl | rfl | he
  · decide
  · decide
  · decide
  · simp at he

/-- Witness for C8 at a concrete classification. -/
theorem classifier_outputs_have_profiles_witness :
    classify "heute" = some "journal" ∧
    (lookupCfg OUTPUT_CONFIG "journal").isSome = true := by
  refine ⟨by decide, ?_⟩
  exact classifier_outputs_have_profiles "heute" "journal" (by decide)

/-- C6: end-to-end journal scenario.  With chat id "42" configured as
an inbox chat, the message "Heute war ein guter Tag im Park" processed
at local time 2024-03-15T20:00 is classified `journal`; the file
`<root>/1 🗓️ Journals/2024/03/2024-03-15.md` gains an appended
"## 20:00 Uhr" section containing the original text (created first if
absent), and the reply content is exactly
"📝 Journal gespeichert → 2024-03-15.md". -/
theorem journal_end_to_end
    (base : InboundMessage → Option String → Option OutboundMessage)
    (fs : FS) :
    classify "Heute war ein guter Tag im Park" = some "journal" ∧
    (process_message base ["42"] "/vault" 4 ⟨2024, 3, 15, 20, 0, 0⟩ fs
        ⟨"telegram", "42", "Heute war ein guter Tag im Park"⟩ none).1 =
      some ⟨"telegram", "42", "📝 Journal gespeichert → 2024-03-15.md"⟩ ∧
    (process_message base ["42"] "/vault" 4 ⟨2024, 3, 15, 20, 0, 0⟩ fs
        ⟨"telegram", "42", "Heute war ein guter Tag im Park"⟩ none).2
        "/vault/1 🗓️ Journals/2024/03/2024-03-15.md" =
      some (((fs "/vault/1 🗓️ Journals/2024/03/2024-03-15.md").getD "")
        ++ "\n## 20:00 Uhr\n\nHeute war ein guter Tag im Park\n") := by
  refine ⟨by decide, rfl, rfl⟩

/-- C7: end-to-end reflection scenario.  The message "Ich frage mich,
warum das so ist" from inbox chat "42" classifies as `reflexion` — not
`journal`, although "warum" contains the substring "war", because the
`\bwar\b` pattern is word-boundary delimited — and a new file named
`<date>_<safe-title>.md` is created in the reflections folder. -/
theorem reflexion_end_to_end :
    classify "Ich frage mich, warum das so ist" = some "reflexion" ∧
    classify "Ich frage mich, warum das so ist" ≠ some "journal" ∧
    patMatch "war" (pyLower "Ich frage mich, warum das so ist") = false ∧
    safe_title "Ich frage mich, warum das so ist" =
      "Ich frage mich warum das so ist" ∧
    (process_inbox (fun _ => none) "/vault" 4 ⟨2024, 3, 15, 20, 0, 0⟩
        ⟨"telegram", "42", "Ich frage mich, warum das so ist"⟩).map
        (fun r => r.2 ("/vault/3 🤔 Reflexionen/" ++
          fmtDate ⟨2024, 3, 15, 20, 0, 0⟩ ++ "_" ++
          safe_title "Ich frage mich, warum das so ist" ++ ".md")) =
      some (some ("# 🤔 Ich frage mich warum das so ist\n\nErstellt: " ++
        "2024-03-15T20:00:00\n\n---\n\nIch frage mich, warum das so ist\n")) ∧
    "/vault/3 🤔 Reflexionen/" ++ fmtDate ⟨2024, 3, 15, 20, 0, 0⟩ ++ "_" ++
        safe_title "Ich frage mich, warum das so ist" ++ ".md" =
      "/vault/3 🤔 Reflexionen/2024-03-15_Ich frage mich warum das so ist.md" := by
  refine ⟨by decide, by decide, by decide, by decide, by decide, by decide⟩

/-- C3 counterexample: on the text "\nHallo" the claimed step sequence
(first line of the raw text, then truncate/filter/strip/truncate)
yields the empty string and hence the fallback "notiz", but the code
strips the whole text before splitting off the first line and yields
"Hallo". -/
theorem title_steps_counterexample :
    safe_title "\nHallo" = "Hallo" ∧
    title_per_spec "\nHallo" = "notiz" ∧
    safe_title "\nHallo" ≠ title_per_spec "\nHallo" := by
  decide

/-- C3 (amended): the derived safe title equals the claimed step
sequence amended with an initial strip of the whole text — strip the
text, take its first line (split on newline), truncate to 50
characters, remove every character that is not a word character,
whitespace or hyphen, strip leading and trailing whitespace, truncate
to 40 characters, and fall back to the fixed literal "notiz" when the
result is empty. -/
theorem title_steps_amended (text : String) :
    safe_title text = title_per_spec_amended text := by
  simp only [safe_title, safeTitleL, title_per_spec_amended]
  split <;> rfl

/-! ## Lemmas about the strip helpers -/

theorem rstripL_subset {c : Char} {l : List Char} (hc : c ∈ rstripL l) :
    c ∈ l := by
  induction l with
  | nil => simp [rstripL] at hc
  | cons a as ih =>
    cases h : rstripL as with
    | nil =>
      by_cases ha : isSpaceChar a = true
      · simp [rstripL, h, ha] at hc
      · have ha' : isSpaceChar a = false := by simpa using ha
        simp [rstripL, h, ha'] at hc
        simp [hc]
    | cons d ds =>
      simp only [rstripL, h] at hc
      rcases List.mem_cons.mp hc with rfl | hc2
      · exact List.mem_cons_self _ _
      · exact List.mem_cons_of_mem _ (ih (by rw [h]; exact hc2))

theorem rstripL_length_le (l : List Char) :
    (rstripL l).length ≤ l.length := by
  induction l with
  | nil => simp [rstripL]
  | cons a as ih =>
    cases h : rstripL as with
    | nil =>
      by_cases ha : isSpaceChar a = true
      · simp [rstripL, h, ha]
      · have ha' : isSpaceChar a = false := by simpa using ha
        simp [rstripL, h, ha']
    | cons d ds =>
      have hlen : (d :: ds).length ≤ as.length := by rw [← h]; exact ih
      simp only [rstripL, h, List.length_cons]
      exact Nat.succ_le_succ hlen

theorem rstripL_idem (l : List Char) : rstripL (rstripL l) = rstripL l := by
  induction l with
  | nil => rfl
  | cons a as ih =>
    cases h : rstripL as with
    | nil =>
      by_cases ha : isSpaceChar a = true
      · simp [rstripL, h, ha]
      · have ha' : isSpaceChar a = false := by simpa using ha
        simp [rstripL, h, ha']
    | cons d ds =>
      have hr : rstripL (d :: ds) = d :: ds := by
        rw [← h]
        exact ih
      have houter : rstripL (a :: as) = a :: d :: ds := by
        show (match rstripL as with
              | [] => if isSpaceChar a then [] else [a]
              | d :: ds => a :: d :: ds) = a :: d :: ds
        rw [h]
      rw [houter]
      show (match rstripL (d :: ds) with
            | [] => if isSpaceChar a then [] else [a]
            | e :: es => a :: e :: es) = a :: d :: ds
      rw [hr]

theorem noLeadSpace_lstripL (l : List Char) :
    noLeadSpace (lstripL l) = true := by
  induction l with
  | nil => rfl
  | cons a as ih =>
    by_cases ha : isSpaceChar a = true
    · simpa [lstripL, List.dropWhile_cons, ha] using ih
    · have ha' : isSpaceChar a = false := by simpa using ha
      simp [lstripL, List.dropWhile_cons, ha', noLeadSpace]

theorem lstripL_of_noLead {l : List Char} (h : noLeadSpace l = true) :
    lstripL l = l := by
  cases l with
  | nil => rfl
  | cons a as =>
    have ha : isSpaceChar a = false := by simpa [noLeadSpace] using h
    simp [lstripL, List.dropWhile_cons, ha]

theorem noLeadSpace_rstripL {l : List Char} (h : noLeadSpace l = true) :
    noLeadSpace (rstripL l) = true := by
  cases l with
  | nil => rfl
  | cons a as =>
    have ha : isSpaceChar a = false := by simpa [noLeadSpace] using h
    cases h2 : rstripL as with
    | nil => simp [rstripL, h2, ha, noLeadSpace]
    | cons d ds => simp [rstripL, h2, noLeadSpace, ha]

theorem rstripL_ne_nil {l : List Char} (h : noLeadSpace l = true)
    (hne : l ≠ []) : rstripL l ≠ [] := by
  cases l with
  | nil => exact absurd rfl hne
  | cons a as =>
    have ha : isSpaceChar a = false := by simpa [noLeadSpace] using h
    cases h2 : rstripL as with
    | nil => simp [rstripL, h2, ha]
    | cons d ds => simp [rstripL, h2]

theorem stripL_subset {c : Char} {l : List Char} (hc : c ∈ stripL l) :
    c ∈ l :=
  (List.dropWhile_sublist _).subset (rstripL_subset hc)

theorem noLeadSpace_stripL (l : List Char) :
    noLeadSpace (stripL l) = true :=
  noLeadSpace_rstripL (noLeadSpace_lstripL l)

theorem noLeadSpace_take (n : Nat) {l : List Char}
    (h : noLeadSpace l = true) : noLeadSpace (l.take n) = true := by
  cases l with
  | nil => simp [noLeadSpace]
  | cons a as =>
    cases n with
    | zero => simp [noLeadSpace]
    | succ n => simpa [noLeadSpace] using h

theorem dropWhile_append_all {α : Type} {p : α → Bool} {l1 : List α}
    (h : ∀ c ∈ l1, p c = true) (l2 : List α) :
    List.dropWhile p (l1 ++ l2) = List.dropWhile p l2 := by
  induction l1 with
  | nil => rfl
  | cons a as ih =>
    have ha := h a (List.mem_cons_self _ _)
    simp only [List.cons_append, List.dropWhile_cons, ha, if_pos]
    exact ih (fun c hc => h c (List.mem_cons_of_mem _ hc))

theorem str_data_append (a b : String) :
    (a ++ b).data = a.data ++ b.data := by
  cases a
  cases b
  rfl

/-! ## Structural facts about the safe title -/

theorem safeTitleL_props (l : List Char) :
    (∀ c ∈ safeTitleL l, keepChar c = true ∧ c ≠ '\n') ∧
    (safeTitleL l).length ≤ 40 ∧
    noLeadSpace (safeTitleL l) = true ∧
    safeTitleL l ≠ [] := by
  simp only [safeTitleL]
  by_cases h :
      (stripL (((firstLineL (stripL l)).take 50).filter keepChar)).take 40
        = []
  · rw [if_pos h]
    exact ⟨by decide, by decide, by decide, by decide⟩
  · rw [if_neg h]
    refine ⟨?_, ?_, ?_, h⟩
    · intro c hc
      have hc40 : c ∈ stripL (((firstLineL (stripL l)).take 50).filter
          keepChar) := (List.take_sublist _ _).subset hc
      have hct : c ∈ ((firstLineL (stripL l)).take 50).filter keepChar :=
        stripL_subset hc40
      have hkeep : keepChar c = true := (List.mem_filter.mp hct).2
      have hcfl : c ∈ firstLineL (stripL l) :=
        (List.take_sublist _ _).subset (List.mem_filter.mp hct).1
      simp only [firstLineL] at hcfl
      have hnl : (c != '\n') = true :=
        List.mem_takeWhile_imp (p := fun c => c != '\n') hcfl
      exact ⟨hkeep, by simpa using hnl⟩
    · rw [List.length_take]
      exact Nat.min_le_left _ _
    · exact noLeadSpace_take 40 (noLeadSpace_stripL _)

theorem safeTitleL_of_clean {T : List Char}
    (HK : ∀ c ∈ T, keepChar c = true ∧ c ≠ '\n')
    (HL : T.length ≤ 40) (HN : noLeadSpace T = true) (HNE : T ≠ []) :
    safeTitleL T = rstripL T := by
  have hR_sub : ∀ c ∈ rstripL T, c ∈ T := fun c hc => rstripL_subset hc
  have h1 : stripL T = rstripL T := by
    rw [stripL, lstripL_of_noLead HN]
  have h2 : firstLineL (rstripL T) = rstripL T := by
    apply List.takeWhile_eq_self_iff.mpr
    intro c hc
    simpa using (HK c (hR_sub c hc)).2
  have hlen : (rstripL T).length ≤ 40 :=
    le_trans (rstripL_length_le T) HL
  have h3 : (rstripL T).take 50 = rstripL T :=
    List.take_of_length_le (le_trans hlen (by omega))
  have h4 : (rstripL T).filter keepChar = rstripL T :=
    List.filter_eq_self.mpr (fun c hc => (HK c (hR_sub c hc)).1)
  have h5 : stripL (rstripL T) = rstripL T := by
    rw [stripL, lstripL_of_noLead (noLeadSpace_rstripL HN), rstripL_idem]
  have h6 : (rstripL T).take 40 = rstripL T := List.take_of_length_le hlen
  have h7 : rstripL T ≠ [] := rstripL_ne_nil HN HNE
  simp only [safeTitleL]
  rw [h1, h2, h3, h4, h5, h6, if_neg h7]

theorem safeTitleL_fallback {l : List Char}
    (h : ∀ c ∈ l, isSpaceChar c = true ∨ keepChar c = false) :
    safeTitleL l = "notiz".data := by
  simp only [safeTitleL]
  generalize hX : ((firstLineL (stripL l)).take 50).filter keepChar = X
  have hall : ∀ c ∈ X, isSpaceChar c = true := by
    intro c hc
    rw [← hX] at hc
    have hkeep := (List.mem_filter.mp hc).2
    have hmem : c ∈ l := by
      have h2 : c ∈ firstLineL (stripL l) :=
        (List.take_sublist _ _).subset (List.mem_filter.mp hc).1
      exact stripL_subset ((List.takeWhile_sublist _).subset h2)
    rcases h c hmem with hs | hk
    · exact hs
    · rw [hk] at hkeep
      exact absurd hkeep (by simp)
  have hz : stripL X = [] := by
    rw [stripL]
    have : lstripL X = [] := by
      rw [lstripL]
      exact List.dropWhile_eq_nil_iff.mpr (fun c hc => hall c hc)
    rw [this]
    rfl
  rw [hz]
  rfl

/-! ## Remaining claims -/

/-- C9 counterexample: the 41-character text of 39 letters "a", a
space and a letter "b" derives the title of 39 letters "a" followed by
a trailing space (the final 40-character truncation cuts just past the
space), and re-deriving from that output strips the trailing space —
the derivation is not idempotent. -/
theorem title_idem_counterexample :
    safe_title (safe_title ⟨List.replicate 39 'a' ++ [' ', 'b']⟩) ≠
      safe_title ⟨List.replicate 39 'a' ++ [' ', 'b']⟩ := by
  decide

/-- C9 (amended): re-deriving the safe title from its own output
returns the output with trailing whitespace removed (trailing
whitespace can arise only from the final 40-character truncation), so
the derivation is idempotent precisely on outputs without trailing
whitespace; the result is always non-empty, falling back to "notiz"
when the input is empty, whitespace-only or entirely punctuation
(characters that are neither word characters, whitespace nor
hyphens). -/
theorem title_rederivation (text : String) :
    safe_title (safe_title text) = ⟨rstripL (safe_title text).data⟩ ∧
    safe_title text ≠ "" ∧
    (rstripL (safe_title text).data = (safe_title text).data →
      safe_title (safe_title text) = safe_title text) ∧
    ((∀ c ∈ text.data, isSpaceChar c = true ∨ keepChar c = false) →
      safe_title text = "notiz") := by
  obtain ⟨HK, HL, HN, HNE⟩ := safeTitleL_props text.data
  have hmain : safeTitleL (safeTitleL text.data) =
      rstripL (safeTitleL text.data) :=
    safeTitleL_of_clean HK HL HN HNE
  refine ⟨congrArg String.mk hmain, ?_, ?_, ?_⟩
  · intro hcontra
    apply HNE
    have hdata : (safe_title text).data = ("" : String).data := by
      rw [hcontra]
    simpa using hdata
  · intro h
    calc safe_title (safe_title text)
        = ⟨rstripL (safe_title text).data⟩ := congrArg String.mk hmain
      _ = ⟨(safe_title text).data⟩ := by rw [h]
      _ = safe_title text := rfl
  · intro h
    show (⟨safeTitleL text.data⟩ : String) = "notiz"
    rw [safeTitleL_fallback h]

/-- Witness for C9 on concrete inputs: a title without trailing
whitespace is a fixed point, and an all-punctuation input falls back
to "notiz". -/
theorem title_rederivation_witness :
    rstripL (safe_title "Hallo Welt").data = (safe_title "Hallo Welt").data ∧
    safe_title (safe_title "Hallo Welt") = safe_title "Hallo Welt" ∧
    (∀ c ∈ (".?!" : String).data,
      isSpaceChar c = true ∨ keepChar c = false) ∧
    safe_title ".?!" = "notiz" := by
  refine ⟨by decide, ?_, by decide, ?_⟩
  · exact (title_rederivation "Hallo Welt").2.2.1 (by decide)
  · exact (title_rederivation ".?!").2.2.2 (by decide)

/-- C10 counterexample: the derived title can contain a carriage
return, which is neither a word character, a space, a tab, nor a
hyphen — the claim's character enumeration is too narrow (the
filter keeps every whitespace character, not just space and tab). -/
theorem title_charset_counterexample :
    '\r' ∈ (safe_title "abc\rdef").data ∧
    isWordChar '\r' = false ∧ '\r' ≠ ' ' ∧ '\r' ≠ '\t' ∧ '\r' ≠ '-' := by
  decide

/-- C10 (amended): every character of the derived safe title is a word
character, a whitespace character other than newline, or a hyphen; the
title has length at most 40 and contains no slash, backslash, dot or
newline; consequently a path `folder ++ "/" ++ filename` whose
filename contains no slash has exactly `folder` as its parent
directory, so the resolved note path stays a direct child of the
intent profile's folder. -/
theorem title_filesystem_safety (text : String) :
    (∀ c ∈ (safe_title text).data,
      isWordChar c = true ∨ (isSpaceChar c = true ∧ c ≠ '\n') ∨ c = '-') ∧
    (safe_title text).data.length ≤ 40 ∧
    '/' ∉ (safe_title text).data ∧
    '\\' ∉ (safe_title text).data ∧
    '.' ∉ (safe_title text).data ∧
    '\n' ∉ (safe_title text).data ∧
    (∀ folder fname : String, '/' ∉ fname.data →
      parentDirL ((folder ++ "/" ++ fname)).data = folder.data) := by
  obtain ⟨HK, HL, _, _⟩ := safeTitleL_props text.data
  have habs : ∀ c : Char, keepChar c = false → c ∉ (safe_title text).data :=
    fun c hff hc => by
      have := (HK c hc).1
      rw [hff] at this
      exact absurd this (by simp)
  refine ⟨?_, HL, habs '/' (by decide), habs '\\' (by decide),
    habs '.' (by decide), ?_, ?_⟩
  · intro c hc
    obtain ⟨hk, hn⟩ := HK c hc
    simp only [keepChar, Bool.or_eq_true] at hk
    rcases hk with (hw | hs) | hh
    · exact Or.inl hw
    · exact Or.inr (Or.inl ⟨hs, hn⟩)
    · exact Or.inr (Or.inr (by simpa using hh))
  · intro hc
    exact (HK _ hc).2 rfl
  · intro folder fname hf
    have hdata : ((folder ++ "/" ++ fname)).data =
        folder.data ++ '/' :: fname.data := by
      rw [str_data_append, str_data_append, List.append_assoc]
      rfl
    rw [hdata]
    unfold parentDirL
    rw [List.reverse_append, List.reverse_cons, List.append_assoc]
    have hall : ∀ c ∈ fname.data.reverse, (c != '/') = true := by
      intro c hc
      have hmem : c ∈ fname.data := List.mem_reverse.mp hc
      have hne : c ≠ '/' := fun e => hf (e ▸ hmem)
      simpa using hne
    rw [dropWhile_append_all hall]
    simp [List.dropWhile_cons]

/-- Witness for C10: a concrete reflections path parses back to its
folder. -/
theorem title_filesystem_safety_witness :
    ('/' ∉ ("2024-03-15_Hallo Welt.md" : String).data) ∧
    parentDirL (("/vault/3 🤔 Reflexionen" ++ "/" ++
        "2024-03-15_Hallo Welt.md")).data =
      ("/vault/3 🤔 Reflexionen" : String).data := by
  refine ⟨by decide, ?_⟩
  exact (title_filesystem_safety "x").2.2.2.2.2.2
    "/vault/3 🤔 Reflexionen" "2024-03-15_Hallo Welt.md" (by decide)

end Nanobot
